import Mathlib

/-!
Verification of the secret-manager-controller reconciliation engine.

Shallow embedding of the Rust sources:
  * `src/provider/azure/key_vault.rs` (`AzureKeyVault::create_or_update_secret`)
  * `src/controller/reconciler/status.rs` (`update_status_phase`, `update_status`,
    `calculate_progressive_backoff`, `get_parsing_error_count`, `clear_parsing_error_count`)
  * `src/controller/reconciler/validation.rs` (`parse_kubernetes_duration`)
  * `src/controller/reconciler/artifact.rs` (`get_flux_artifact_path`: revision-key
    computation and download validation)
  * `crates/controller/src/controller/parser/sops/error.rs` (`classify_sops_error`,
    `SopsDecryptionFailureReason::is_transient`)
  * the secret-name utilities exercised by `tests/utils_tests.rs` (the `utils.rs`
    source file is not in the corpus; those functions are modelled from the spec).

Strings are modelled as Lean `String` / `List Char`; machine integers as `Nat` / `Int`
(overflow is made explicit where the Rust code can fail on it); fallible code returns
`Except` / `Option`; timestamps are abstract `Nat` instants.
-/

/-! ## Shared string helpers (ASCII fragments of the Rust std behaviour) -/

/-- Rust `char::is_whitespace`, the predicate `str::trim` strips: the Unicode
White_Space property (U+0009-U+000D, U+0020, U+0085, U+00A0, U+1680,
U+2000-U+200A, U+2028, U+2029, U+202F, U+205F, U+3000). -/
def isRustWhitespace (c : Char) : Bool :=
  c.toNat = 0x09 || c.toNat = 0x0A || c.toNat = 0x0B || c.toNat = 0x0C ||
  c.toNat = 0x0D || c.toNat = 0x20 || c.toNat = 0x85 || c.toNat = 0xA0 ||
  c.toNat = 0x1680 || (0x2000 ≤ c.toNat && c.toNat ≤ 0x200A) ||
  c.toNat = 0x2028 || c.toNat = 0x2029 || c.toNat = 0x202F ||
  c.toNat = 0x205F || c.toNat = 0x3000

/-- Rust `str::trim` on the character list: drop whitespace from both ends. -/
def trimChars (s : List Char) : List Char :=
  ((s.dropWhile isRustWhitespace).reverse.dropWhile isRustWhitespace).reverse

/-- Rust `str::to_lowercase` (ASCII fragment): lowercase every character. -/
def toLowerChars (s : List Char) : List Char :=
  s.map Char.toLower

/-- ASCII decimal digit, the `\d` of the duration regex restricted to ASCII
(non-ASCII digits are rejected by the subsequent `u64` parse in the Rust code,
so the accepted inputs coincide). -/
def isDigitChar (c : Char) : Bool :=
  c ∈ ['9', '8', '7', '6', '5', '4', '3', '2', '1', '0']

/-- Numeric value of a digit string (the successful case of Rust `str::parse::<u64>`). -/
def digitsToNat (ds : List Char) : Nat :=
  ds.foldl (fun acc c => acc * 10 + (c.toNat - 48)) 0

/-- Rust `str::contains(pat)`: some contiguous run of `s` equals `pat`. -/
def strContains : List Char → List Char → Bool
  | [], pat => pat.isEmpty
  | c :: t, pat => pat.isPrefixOf (c :: t) || strContains t pat

/-- Everything after the first occurrence of `pat` in `s`
(Rust `s.find(pat)` followed by slicing `&s[idx + pat.len()..]`). -/
def dropAfterSubstr? (pat : List Char) : List Char → Option (List Char)
  | [] => if pat.isEmpty then some [] else none
  | c :: t => if pat.isPrefixOf (c :: t) then some ((c :: t).drop pat.length)
              else dropAfterSubstr? pat t

/-- Association-list store used to model a provider keyed by secret name. -/
def lookupStore : List (String × String) → String → Option String
  | [], _ => none
  | (k, v) :: rest, n => if k = n then some v else lookupStore rest n

/-- Write (create or replace) a binding in the store: the effect of a successful
provider `set` call, observed through latest-version `get` semantics. -/
def insertStore : List (String × String) → String → String → List (String × String)
  | [], n, v => [(n, v)]
  | (k, w) :: rest, n, v => if k = n then (n, v) :: rest else (k, w) :: insertStore rest n v

/-- Remove a key from an annotation map (the effect of a JSON merge patch
setting the key to `null`). -/
def removeKey (m : List (String × String)) (key : String) : List (String × String) :=
  m.filter (fun kv => kv.1 ≠ key)

theorem lookupStore_insertStore_self (s : List (String × String)) (n v : String) :
    lookupStore (insertStore s n v) n = some v := by
  induction s with
  | nil => simp [insertStore, lookupStore]
  | cons kv rest ih =>
    obtain ⟨k, w⟩ := kv
    by_cases h : k = n <;> simp [insertStore, lookupStore, h, ih]

theorem lookupStore_removeKey_self (m : List (String × String)) (key : String) :
    lookupStore (removeKey m key) key = none := by
  induction m with
  | nil => simp [removeKey, lookupStore]
  | cons kv rest ih =>
    obtain ⟨k, w⟩ := kv
    by_cases h : k = key
    · simpa [removeKey, lookupStore, h] using ih
    · simpa [removeKey, lookupStore, h] using ih

/-! ## C1 — Azure Key Vault `create_or_update_secret`
(`src/provider/azure/key_vault.rs`, lines 153-230)

The Rust method first calls `get_secret_value`; when the provider already holds the
same value it returns `Ok(false)` without issuing `set_secret`; otherwise it calls
`set_secret` and returns `Ok(true)` on success.  The provider is modelled as an
association store: `get` is `lookupStore`, a successful `set_secret` is `insertStore`.
The error paths (`get` failure, `set_secret` failure) short-circuit and return no
`changed` flag at all, so they do not appear in the returned pair. -/

/-- Embedding of `AzureKeyVault::create_or_update_secret` on the success paths:
returns the `changed` flag together with the provider state after the call. -/
def create_or_update_secret (store : List (String × String)) (secret_name secret_value : String) :
    Bool × List (String × String) :=
  match lookupStore store secret_name with
  | some current =>
      if current = secret_value then (false, store)
      else (true, insertStore store secret_name secret_value)
  | none => (true, insertStore store secret_name secret_value)

/-- C1: the `changed` flag of `create_or_update_secret` is `false` exactly when the
provider already held the same value for that name; in that case no write happens
(the store is unchanged), and otherwise the call writes the new value and returns
`true`. -/
theorem C1_create_or_update_changed_iff (store : List (String × String))
    (n v : String) :
    ((create_or_update_secret store n v).1 = false ↔ lookupStore store n = some v)
    ∧ (lookupStore store n = some v → (create_or_update_secret store n v).2 = store)
    ∧ (lookupStore store n ≠ some v →
        (create_or_update_secret store n v).1 = true
        ∧ lookupStore (create_or_update_secret store n v).2 n = some v) := by
  refine ⟨?_, ?_, ?_⟩
  · constructor
    · intro h
      unfold create_or_update_secret at h
      cases hl : lookupStore store n with
      | none => rw [hl] at h; simp at h
      | some current =>
        rw [hl] at h
        by_cases hc : current = v
        · rw [hc]
        · simp [hc] at h
    · intro h
      simp [create_or_update_secret, h]
  · intro h
    simp [create_or_update_secret, h]
  · intro h
    unfold create_or_update_secret
    cases hl : lookupStore store n with
    | none => simpa using lookupStore_insertStore_self store n v
    | some current =>
      have hc : current ≠ v := by
        intro hcv; exact h (by rw [hl, hcv])
      simpa [hc] using lookupStore_insertStore_self store n v

/-- C1 witness: concrete run of the theorem at a store that already holds the value. -/
theorem C1_create_or_update_changed_iff_witness :
    ((create_or_update_secret [("db-url", "postgres")] "db-url" "postgres").1 = false
      ↔ lookupStore [("db-url", "postgres")] "db-url" = some "postgres") :=
  (C1_create_or_update_changed_iff [("db-url", "postgres")] "db-url" "postgres").1

/-! ## C3 — progressive Fibonacci backoff
(`src/controller/reconciler/status.rs`, lines 180-214 and 256-291)

`calculate_progressive_backoff` maps the per-resource consecutive error count to a
requeue duration via a fixed Fibonacci minute table capped at 60 minutes.  The
per-resource error count is persisted in the
`secret-management.microscaler.io/duration-parsing-errors` annotation
(`get_parsing_error_count` reads it, defaulting to 0); on success
`clear_parsing_error_count` patches the annotation to `null`, which removes the key,
so the next read starts again at index 0.  (The reconcile-loop call site of the
success reset and the in-memory `FibonacciBackoff` helper are not in the corpus;
the reset is modelled from the spec through the annotation functions that are.) -/

/-- Embedding of `calculate_progressive_backoff`: backoff in seconds for a given
consecutive error count. -/
def calculate_progressive_backoff (error_count : Nat) : Nat :=
  let backoff_minutes :=
    match error_count with
    | 0 => 1
    | 1 => 1
    | 2 => 2
    | 3 => 3
    | 4 => 5
    | 5 => 8
    | 6 => 13
    | 7 => 21
    | 8 => 34
    | 9 => 55
    | _ => 60
  backoff_minutes * 60

/-- The Fibonacci minute sequence named by the spec. -/
def fibonacciBackoffMinutes : List Nat := [1, 1, 2, 3, 5, 8, 13, 21, 34, 55]

/-- Annotation key holding the per-resource parse-error count. -/
def duration_parsing_errors_key : String :=
  "secret-management.microscaler.io/duration-parsing-errors"

/-- Successful case of Rust `str::parse::<u32>`: optional sign `+`, then ASCII digits,
value below `2^32`. -/
def parse_u32? (s : String) : Option Nat :=
  let ds := match s.data with
    | '+' :: rest => if rest.isEmpty then none else some rest
    | other => if other.isEmpty then none else some other
  match ds with
  | some ds =>
      if ds.all isDigitChar ∧ digitsToNat ds < 2 ^ 32 then some (digitsToNat ds) else none
  | none => none

/-- Embedding of `get_parsing_error_count`: read the error-count annotation,
defaulting to 0 when the annotation map or key is absent or unparsable. -/
def get_parsing_error_count (annotations : Option (List (String × String))) : Nat :=
  match annotations with
  | none => 0
  | some ann =>
      match lookupStore ann duration_parsing_errors_key with
      | none => 0
      | some v => (parse_u32? v).getD 0

/-- Embedding of the effect of `clear_parsing_error_count` on the annotation map:
the merge patch sets the key to `null`, removing it. -/
def clear_parsing_error_count (annotations : List (String × String)) :
    List (String × String) :=
  removeKey annotations duration_parsing_errors_key

/-- C3: the backoff after the n-th consecutive failure is the n-th Fibonacci minute
for n ≤ 9 and 60 minutes for every n ≥ 10, and after a success reset (annotation
cleared) the error count read back is 0. -/
theorem C3_progressive_backoff_table (n : Nat) :
    (n ≤ 9 → calculate_progressive_backoff n = fibonacciBackoffMinutes.getD n 0 * 60)
    ∧ (10 ≤ n → calculate_progressive_backoff n = 60 * 60)
    ∧ (∀ ann : List (String × String),
        get_parsing_error_count (some (clear_parsing_error_count ann)) = 0) := by
  refine ⟨?_, ?_, ?_⟩
  · intro h
    interval_cases n <;> rfl
  · intro h
    obtain ⟨m, rfl⟩ : ∃ m, n = m + 10 := ⟨n - 10, by omega⟩
    rfl
  · intro ann
    simp [get_parsing_error_count, clear_parsing_error_count,
      lookupStore_removeKey_self]

/-- C3 witness: concrete instantiation at error counts 4 and 12 and a one-entry map. -/
theorem C3_progressive_backoff_table_witness :
    calculate_progressive_backoff 4 = fibonacciBackoffMinutes.getD 4 0 * 60
    ∧ calculate_progressive_backoff 12 = 60 * 60
    ∧ get_parsing_error_count
        (some (clear_parsing_error_count [(duration_parsing_errors_key, "7")])) = 0 :=
  ⟨(C3_progressive_backoff_table 4).1 (by decide),
   (C3_progressive_backoff_table 12).2.1 (by decide),
   (C3_progressive_backoff_table 0).2.2 [(duration_parsing_errors_key, "7")]⟩

/-! ## C10 — `parse_kubernetes_duration`
(`src/controller/reconciler/validation.rs`, lines 13-93)

The Rust function trims the input, rejects the empty string, lowercases, matches
the regex `^\d+[smhd]$`, parses the number as `u64` (failing on overflow), rejects
zero, and multiplies by the unit factor.  The unit multiplication is `u64`
arithmetic: it wraps modulo 2^64 in release builds (and panics in debug builds),
which the embedding makes explicit with `% 2 ^ 64`; below the wrap point both
build modes agree with the plain product.  Lowercasing is modelled per character
with `Char.toLower` (ASCII): Rust lowercases the full Unicode range, but no
non-ASCII character lowercases to a digit or to one of s/m/h/d (and multi-char
expansions never produce a matching string), so the accepted inputs and results
coincide. -/

/-- Match of the duration regex `^(?P<number>\d+)(?P<unit>[smhd])$`:
a nonempty digit run followed by exactly one unit character. -/
def matchDurationFormat? (s : List Char) : Option (List Char × Char) :=
  let digits := s.takeWhile isDigitChar
  let rest := s.dropWhile isDigitChar
  match digits, rest with
  | [], _ => none
  | _, [u] =>
      if u = 's' || u = 'm' || u = 'h' || u = 'd' then some (digits, u) else none
  | _, _ => none

/-- Embedding of `parse_kubernetes_duration`: returns the duration in seconds. -/
def parse_kubernetes_duration (duration_str : String) : Except String Nat :=
  let duration_trimmed := trimChars duration_str.data
  if duration_trimmed.isEmpty then .error "Duration string cannot be empty"
  else
    let interval_lower := toLowerChars duration_trimmed
    match matchDurationFormat? interval_lower with
    | none => .error "Invalid duration format"
    | some (digits, unit) =>
        let number := digitsToNat digits
        if 2 ^ 64 ≤ number then .error "Invalid duration number"
        else if number = 0 then .error "Duration number must be greater than 0"
        else
          match unit with
          | 's' => .ok number
          | 'm' => .ok (number * 60 % 2 ^ 64)
          | 'h' => .ok (number * 3600 % 2 ^ 64)
          | 'd' => .ok (number * 86400 % 2 ^ 64)
          | _ => .error "Invalid unit"

theorem dropWhile_cons_false {p : Char → Bool} (a : Char) (l : List Char) (h : p a = false) :
    (a :: l).dropWhile p = a :: l := by
  simp [List.dropWhile_cons, h]

theorem takeWhile_append_all {p : Char → Bool} (l : List Char) (a : Char) (r : List Char)
    (hl : ∀ c ∈ l, p c = true) (ha : p a = false) :
    (l ++ a :: r).takeWhile p = l ∧ (l ++ a :: r).dropWhile p = a :: r := by
  induction l with
  | nil => simp [List.takeWhile_cons, List.dropWhile_cons, ha]
  | cons c t ih =>
    have hc : p c = true := hl c (by simp)
    have ht : ∀ x ∈ t, p x = true := fun x hx => hl x (by simp [hx])
    obtain ⟨h1, h2⟩ := ih ht
    simp [List.takeWhile_cons, List.dropWhile_cons, hc, h1, h2]

theorem isDigitChar_facts (c : Char) (h : isDigitChar c = true) :
    isRustWhitespace c = false ∧ Char.toLower c = c := by
  have hc : c ∈ ['9', '8', '7', '6', '5', '4', '3', '2', '1', '0'] := by
    simpa [isDigitChar] using h
  fin_cases hc <;> exact ⟨by decide, by decide⟩

theorem trimChars_eq_self (d u : Char) (m : List Char)
    (hd : isRustWhitespace d = false) (hu : isRustWhitespace u = false) :
    trimChars (d :: (m ++ [u])) = d :: (m ++ [u]) := by
  unfold trimChars
  rw [dropWhile_cons_false d _ hd]
  rw [show (d :: (m ++ [u])).reverse = u :: (d :: m).reverse by simp]
  rw [dropWhile_cons_false u _ hu]
  simp

theorem toLowerChars_all_fixed (l : List Char) (hall : ∀ c ∈ l, Char.toLower c = c) :
    toLowerChars l = l := by
  unfold toLowerChars
  calc l.map Char.toLower = l.map id := List.map_congr_left hall
    _ = l := List.map_id l

theorem matchDurationFormat_digits_unit (d : Char) (dt : List Char) (u : Char)
    (hall : ∀ c ∈ d :: dt, isDigitChar c = true) (hu : isDigitChar u = false)
    (hunit : u = 's' ∨ u = 'm' ∨ u = 'h' ∨ u = 'd') :
    matchDurationFormat? ((d :: dt) ++ [u]) = some (d :: dt, u) := by
  obtain ⟨h1, h2⟩ := takeWhile_append_all (d :: dt) u [] hall hu
  simp only [matchDurationFormat?, h1, h2]
  rcases hunit with h | h | h | h <;> subst h <;> rfl

theorem parse_kubernetes_duration_reduce (ds : List Char) (u : Char)
    (hds : ds ≠ []) (hall : ∀ c ∈ ds, isDigitChar c = true)
    (hu_ws : isRustWhitespace u = false) (hu_low : Char.toLower u = u)
    (hu_digit : isDigitChar u = false)
    (hunit : u = 's' ∨ u = 'm' ∨ u = 'h' ∨ u = 'd')
    (hnz : digitsToNat ds ≠ 0) (hlt : digitsToNat ds < 2 ^ 64) :
    parse_kubernetes_duration ⟨ds ++ [u]⟩ =
      (match u with
       | 's' => .ok (digitsToNat ds)
       | 'm' => .ok (digitsToNat ds * 60 % 2 ^ 64)
       | 'h' => .ok (digitsToNat ds * 3600 % 2 ^ 64)
       | 'd' => .ok (digitsToNat ds * 86400 % 2 ^ 64)
       | _ => .error "Invalid unit") := by
  cases ds with
  | nil => exact absurd rfl hds
  | cons d dt =>
    have hd_ws : isRustWhitespace d = false := (isDigitChar_facts d (hall d (by simp))).1
    have hlowfix : ∀ c ∈ (d :: dt) ++ [u], Char.toLower c = c := by
      intro c hc
      rcases List.mem_append.mp hc with hc | hc
      · exact (isDigitChar_facts c (hall c hc)).2
      · simp at hc; subst hc; exact hu_low
    have htrim : trimChars ((d :: dt) ++ [u]) = (d :: dt) ++ [u] := by
      simpa using trimChars_eq_self d u dt hd_ws hu_ws
    have hlow : toLowerChars ((d :: dt) ++ [u]) = (d :: dt) ++ [u] :=
      toLowerChars_all_fixed _ hlowfix
    have hmatch : matchDurationFormat? ((d :: dt) ++ [u]) = some (d :: dt, u) :=
      matchDurationFormat_digits_unit d dt u hall hu_digit hunit
    show parse_kubernetes_duration (String.mk ((d :: dt) ++ [u])) = _
    unfold parse_kubernetes_duration
    simp only [String.data, htrim, hlow, hmatch]
    have hne : ((d :: dt) ++ [u]).isEmpty = false := by simp
    rw [hne]
    simp only [Bool.false_eq_true, if_false]
    rw [if_neg (by omega), if_neg hnz]

/-- C10: `parse_kubernetes_duration` trims surrounding whitespace (the full Rust
whitespace set: form feed and no-break space are also stripped) and lowercases
before matching the duration regex (so " 5M " is accepted as 300 seconds); units
s/m/h/d scale by 1/60/3600/86400 (stated below the u64 wrap point, where both
Rust build modes return that product); the empty string, every format mismatch,
and the value zero are rejected, even though "0s" does match the format regex. -/
theorem C10_parse_kubernetes_duration_spec :
    parse_kubernetes_duration " 5M " = .ok 300
    ∧ parse_kubernetes_duration "\x0C5m\u00A0" = .ok 300
    ∧ parse_kubernetes_duration "" = .error "Duration string cannot be empty"
    ∧ matchDurationFormat? (toLowerChars (trimChars ("0s").data)) = some (['0'], 's')
    ∧ parse_kubernetes_duration "0s" = .error "Duration number must be greater than 0"
    ∧ (∀ s : String, matchDurationFormat? (toLowerChars (trimChars s.data)) = none →
        ∃ e, parse_kubernetes_duration s = .error e)
    ∧ (∀ ds : List Char, ds ≠ [] → (∀ c ∈ ds, isDigitChar c = true) →
        digitsToNat ds ≠ 0 → digitsToNat ds * 86400 < 2 ^ 64 →
        parse_kubernetes_duration ⟨ds ++ ['s']⟩ = .ok (digitsToNat ds)
        ∧ parse_kubernetes_duration ⟨ds ++ ['m']⟩ = .ok (digitsToNat ds * 60)
        ∧ parse_kubernetes_duration ⟨ds ++ ['h']⟩ = .ok (digitsToNat ds * 3600)
        ∧ parse_kubernetes_duration ⟨ds ++ ['d']⟩ = .ok (digitsToNat ds * 86400)) := by
  refine ⟨rfl, rfl, rfl, rfl, rfl, ?_, ?_⟩
  · intro s hnone
    by_cases he : (trimChars s.data).isEmpty
    · exact ⟨"Duration string cannot be empty", by unfold parse_kubernetes_duration; simp [he]⟩
    · exact ⟨"Invalid duration format", by unfold parse_kubernetes_duration; simp [he, hnone]⟩
  · intro ds hds hall hnz hbig
    have key : ∀ k : Nat, k ≤ 86400 → digitsToNat ds * k < 2 ^ 64 := by
      intro k hk
      calc digitsToNat ds * k ≤ digitsToNat ds * 86400 :=
            Nat.mul_le_mul (Nat.le_refl _) hk
        _ < 2 ^ 64 := hbig
    have hlt : digitsToNat ds < 2 ^ 64 := by
      have h1 := key 1 (by omega)
      simpa using h1
    refine ⟨?_, ?_, ?_, ?_⟩
    · simpa using parse_kubernetes_duration_reduce ds 's' hds hall (by decide) (by decide)
        (by decide) (Or.inl rfl) hnz hlt
    · have h := parse_kubernetes_duration_reduce ds 'm' hds hall (by decide) (by decide)
        (by decide) (Or.inr (Or.inl rfl)) hnz hlt
      rw [Nat.mod_eq_of_lt (key 60 (by omega))] at h
      simpa using h
    · have h := parse_kubernetes_duration_reduce ds 'h' hds hall (by decide) (by decide)
        (by decide) (Or.inr (Or.inr (Or.inl rfl))) hnz hlt
      rw [Nat.mod_eq_of_lt (key 3600 (by omega))] at h
      simpa using h
    · have h := parse_kubernetes_duration_reduce ds 'd' hds hall (by decide) (by decide)
        (by decide) (Or.inr (Or.inr (Or.inr rfl))) hnz hlt
      rw [Nat.mod_eq_of_lt (key 86400 (by omega))] at h
      simpa using h

/-- C10 witness: concrete instantiation of the hypothesised conjuncts at "xs" and "25". -/
theorem C10_parse_kubernetes_duration_spec_witness :
    (∃ e, parse_kubernetes_duration "xs" = .error e)
    ∧ parse_kubernetes_duration "25m" = .ok 1500 := by
  constructor
  · exact C10_parse_kubernetes_duration_spec.2.2.2.2.2.1 "xs" rfl
  · have h := (C10_parse_kubernetes_duration_spec.2.2.2.2.2.2 ['2', '5'] (by decide)
      (by decide) (by decide) (by decide)).2.1
    simpa using h

/-! ## C4 — SOPS error classification
(`crates/controller/src/controller/parser/sops/error.rs`, lines 55-65 and 129-190)

`classify_sops_error` checks the SOPS exit code first (3/4/5/6/2 have fixed
meanings; any other code, or no code, falls through), then matches lowercased
substrings of the error message: the permanent reasons first (no decryption key /
key not found, wrong key / decryption failed with gpg or key, invalid key /
malformed key, unsupported format / unknown file type, corrupt / invalid file),
then the transient ones (timeout, unavailable / connection refused, permission
denied / unauthorized / forbidden), defaulting to `Unknown`. -/

inductive SopsDecryptionFailureReason where
  | KeyNotFound
  | WrongKey
  | InvalidKeyFormat
  | UnsupportedFormat
  | CorruptedFile
  | NetworkTimeout
  | ProviderUnavailable
  | PermissionDenied
  | Unknown
deriving DecidableEq, Repr

/-- Embedding of `SopsDecryptionFailureReason::is_transient`. -/
def SopsDecryptionFailureReason.is_transient : SopsDecryptionFailureReason → Bool
  | .NetworkTimeout => true
  | .ProviderUnavailable => true
  | .PermissionDenied => true
  | .Unknown => true
  | _ => false

def pat_no_decryption_key : List Char := "no decryption key".data
def pat_key_not_found : List Char := "key not found".data
def pat_wrong_key : List Char := "wrong key".data
def pat_decryption_failed : List Char := "decryption failed".data
def pat_gpg : List Char := "gpg".data
def pat_key : List Char := "key".data
def pat_invalid_key : List Char := "invalid key".data
def pat_malformed_key : List Char := "malformed key".data
def pat_unsupported_format : List Char := "unsupported format".data
def pat_unknown_file_type : List Char := "unknown file type".data
def pat_corrupt : List Char := "corrupt".data
def pat_invalid_file : List Char := "invalid file".data
def pat_timeout : List Char := "timeout".data
def pat_timed_out : List Char := "timed out".data
def pat_unavailable : List Char := "unavailable".data
def pat_connection_refused : List Char := "connection refused".data
def pat_permission_denied : List Char := "permission denied".data
def pat_unauthorized : List Char := "unauthorized".data
def pat_forbidden : List Char := "forbidden".data

/-- Message-fallback half of `classify_sops_error` (lines 146-189): substring matching
against the lowercased message.  The `WrongKey` arm keeps the source nesting: the outer
condition without the inner gpg/key condition falls through to the next check. -/
def classify_sops_message (error_msg : String) : SopsDecryptionFailureReason :=
  let el := toLowerChars error_msg.data
  if strContains el pat_no_decryption_key || strContains el pat_key_not_found then
    .KeyNotFound
  else if (strContains el pat_wrong_key || strContains el pat_decryption_failed)
      && (strContains el pat_gpg || strContains el pat_key) then
    .WrongKey
  else if strContains el pat_invalid_key || strContains el pat_malformed_key then
    .InvalidKeyFormat
  else if strContains el pat_unsupported_format || strContains el pat_unknown_file_type then
    .UnsupportedFormat
  else if strContains el pat_corrupt || strContains el pat_invalid_file then
    .CorruptedFile
  else if strContains el pat_timeout || strContains el pat_timed_out then
    .NetworkTimeout
  else if strContains el pat_unavailable || strContains el pat_connection_refused then
    .ProviderUnavailable
  else if strContains el pat_permission_denied || strContains el pat_unauthorized
      || strContains el pat_forbidden then
    .PermissionDenied
  else
    .Unknown

/-- Embedding of `classify_sops_error`: exit code first (the Rust `match` on
`code` with arms 3, 4, 5, 6, 2 and a fall-through default), message fallback
otherwise. -/
def classify_sops_error (error_msg : String) (exit_code : Option Int) :
    SopsDecryptionFailureReason :=
  match exit_code with
  | some code =>
      if code = 3 then .KeyNotFound
      else if code = 4 then .WrongKey
      else if code = 5 then .UnsupportedFormat
      else if code = 6 then .InvalidKeyFormat
      else if code = 2 then .CorruptedFile
      else classify_sops_message error_msg
  | none => classify_sops_message error_msg

/-- The message fallback exactly as the claim words it: only the three transient
substring groups, else `Unknown`. -/
def claimedFallbackClassification (error_msg : String) : SopsDecryptionFailureReason :=
  let el := toLowerChars error_msg.data
  if strContains el pat_timeout || strContains el pat_timed_out then
    .NetworkTimeout
  else if strContains el pat_unavailable || strContains el pat_connection_refused then
    .ProviderUnavailable
  else if strContains el pat_permission_denied || strContains el pat_unauthorized
      || strContains el pat_forbidden then
    .PermissionDenied
  else
    .Unknown

/-- C4 counterexample: with no exit code and the message "no decryption key" the code
classifies `KeyNotFound`, while the claim's fallback table (timeout / unavailable /
permission denied, else Unknown) would give `Unknown`; the claim omits the permanent
message checks that run before the transient ones. -/
theorem C4_counterexample_message_fallback :
    classify_sops_error "no decryption key" none = .KeyNotFound
    ∧ claimedFallbackClassification "no decryption key" = .Unknown
    ∧ SopsDecryptionFailureReason.KeyNotFound ≠ SopsDecryptionFailureReason.Unknown := by
  refine ⟨rfl, rfl, by decide⟩

/-- Spec-side classification written from the §4.6 table: an exit-code lookup table
consulted first, then a first-matching-rule scan over the message rows. -/
def sopsExitCodeTable : List (Int × SopsDecryptionFailureReason) :=
  [(3, .KeyNotFound), (4, .WrongKey), (6, .InvalidKeyFormat),
   (5, .UnsupportedFormat), (2, .CorruptedFile)]

def firstMatchingReason :
    List ((List Char → Bool) × SopsDecryptionFailureReason) → List Char →
      SopsDecryptionFailureReason
  | [], _ => .Unknown
  | (p, r) :: rest, el => if p el then r else firstMatchingReason rest el

/-- Message rows of the spec table, in order, as predicates on the lowercased message. -/
def sopsMessageRules : List ((List Char → Bool) × SopsDecryptionFailureReason) :=
  [(fun el => strContains el pat_no_decryption_key || strContains el pat_key_not_found,
    .KeyNotFound),
   (fun el => (strContains el pat_wrong_key || strContains el pat_decryption_failed)
      && (strContains el pat_gpg || strContains el pat_key), .WrongKey),
   (fun el => strContains el pat_invalid_key || strContains el pat_malformed_key,
    .InvalidKeyFormat),
   (fun el => strContains el pat_unsupported_format || strContains el pat_unknown_file_type,
    .UnsupportedFormat),
   (fun el => strContains el pat_corrupt || strContains el pat_invalid_file,
    .CorruptedFile),
   (fun el => strContains el pat_timeout || strContains el pat_timed_out,
    .NetworkTimeout),
   (fun el => strContains el pat_unavailable || strContains el pat_connection_refused,
    .ProviderUnavailable),
   (fun el => strContains el pat_permission_denied || strContains el pat_unauthorized
      || strContains el pat_forbidden, .PermissionDenied)]

/-- Spec-side classification: exit-code table first, then first matching message row. -/
def specSopsClassification (error_msg : String) (exit_code : Option Int) :
    SopsDecryptionFailureReason :=
  match exit_code.bind (fun c => (sopsExitCodeTable.find? (fun p => p.1 = c)).map (·.2)) with
  | some r => r
  | none => firstMatchingReason sopsMessageRules (toLowerChars error_msg.data)

/-- C4 (amended): classification follows the spec table with exit codes taking
precedence (3→KeyNotFound, 4→WrongKey, 6→InvalidKeyFormat, 5→UnsupportedFormat,
2→CorruptedFile), and the message fallback checks the permanent substring rows
before the transient ones, defaulting to Unknown; `is_transient` is true exactly
for NetworkTimeout, ProviderUnavailable, PermissionDenied and Unknown. -/
theorem C4_classify_sops_error_spec :
    (∀ (msg : String) (code : Option Int),
      classify_sops_error msg code = specSopsClassification msg code)
    ∧ (∀ r : SopsDecryptionFailureReason,
        r.is_transient = true ↔
          (r = .NetworkTimeout ∨ r = .ProviderUnavailable
            ∨ r = .PermissionDenied ∨ r = .Unknown)) := by
  constructor
  · intro msg code
    match code with
    | none => rfl
    | some c =>
      by_cases h3 : c = 3
      · subst h3; rfl
      by_cases h4 : c = 4
      · subst h4; rfl
      by_cases h5 : c = 5
      · subst h5; rfl
      by_cases h6 : c = 6
      · subst h6; rfl
      by_cases h2 : c = 2
      · subst h2; rfl
      · have h3s : (3 : Int) ≠ c := fun h => h3 h.symm
        have h4s : (4 : Int) ≠ c := fun h => h4 h.symm
        have h5s : (5 : Int) ≠ c := fun h => h5 h.symm
        have h6s : (6 : Int) ≠ c := fun h => h6 h.symm
        have h2s : (2 : Int) ≠ c := fun h => h2 h.symm
        have hfind : (sopsExitCodeTable.find? (fun p => p.1 = c)) = none := by
          simp [sopsExitCodeTable, List.find?, h3s, h4s, h5s, h6s, h2s]
        have hLHS : classify_sops_error msg (some c) = classify_sops_message msg := by
          have h0 : classify_sops_error msg (some c) =
              (if c = 3 then SopsDecryptionFailureReason.KeyNotFound
               else if c = 4 then .WrongKey
               else if c = 5 then .UnsupportedFormat
               else if c = 6 then .InvalidKeyFormat
               else if c = 2 then .CorruptedFile
               else classify_sops_message msg) := rfl
          rw [h0, if_neg h3, if_neg h4, if_neg h5, if_neg h6, if_neg h2]
        have hRHS : specSopsClassification msg (some c) =
            firstMatchingReason sopsMessageRules (toLowerChars msg.data) := by
          have h0 : specSopsClassification msg (some c) =
              (match ((sopsExitCodeTable.find? (fun p => p.1 = c)).map (·.2)) with
               | some r => r
               | none => firstMatchingReason sopsMessageRules (toLowerChars msg.data)) := rfl
          rw [h0, hfind]
          rfl
        rw [hLHS, hRHS]
        rfl
  · intro r
    cases r <;> simp [SopsDecryptionFailureReason.is_transient]

/-- C4 witness: the amended theorem instantiated at exit code 4 and a timeout message. -/
theorem C4_classify_sops_error_spec_witness :
    classify_sops_error "connection timed out" (some 4) =
      specSopsClassification "connection timed out" (some 4)
    ∧ SopsDecryptionFailureReason.Unknown.is_transient = true :=
  ⟨C4_classify_sops_error_spec.1 "connection timed out" (some 4),
   (C4_classify_sops_error_spec.2 .Unknown).mpr (Or.inr (Or.inr (Or.inr rfl)))⟩

/-! ## C5 / C6 — status patching
(`src/controller/reconciler/status.rs`, lines 14-94 `update_status_phase` and
lines 98-174 `update_status`)

Both functions first compare the requested status against the resource's current
status and return without an API call when nothing relevant changed; otherwise they
send a JSON merge patch built from a fully populated `SecretManagerConfigStatus`
(all fields serialized, absent ones as `null`), which replaces the status fields.
The patch is modelled as that replacement, and the Kubernetes write as the `Bool`
first component.  Timestamps (`chrono::Utc::now`, RFC3339) are abstract `Nat`
instants supplied as a `now` parameter. -/

structure Condition where
  r_type : String
  status : String
  lastTransitionTime : Option Nat
  reason : Option String
  message : Option String
deriving DecidableEq, Repr

structure SecretManagerConfigStatus where
  phase : Option String
  description : Option String
  conditions : List Condition
  observedGeneration : Option Int
  lastReconcileTime : Option Nat
  nextReconcileTime : Option Nat
  secretsSynced : Option Int
deriving DecidableEq, Repr

/-- The slice of `SecretManagerConfig` that the status functions read. -/
structure SmcConfig where
  generation : Option Int
  reconcileInterval : String
  configsEnabled : Bool
  status : Option SecretManagerConfigStatus
deriving Repr

/-- The `next_reconcile_time` computation shared by both status functions:
`parse_kubernetes_duration(interval).ok().map(|d| now + d)`. -/
def nextReconcileTimeAfter (interval : String) (now : Nat) : Option Nat :=
  (parse_kubernetes_duration interval).toOption.map (fun d => now + d)

/-- The single condition pushed by `update_status_phase` (lines 42-58 of the source):
status "True" only for phase Ready, reason from the phase, transition time stamped
with the current instant. -/
def mkReadyCondition (phase : String) (message : Option String) (now : Nat) : Condition :=
  { r_type := "Ready"
    status := if phase = "Ready" then "True" else "False"
    lastTransitionTime := some now
    reason := some (if phase = "Ready" then "ReconciliationSucceeded"
      else if phase = "Failed" then "ReconciliationFailed"
      else "ReconciliationInProgress")
    message := message }

/-- Embedding of `update_status_phase`: returns whether an API write was issued
together with the resulting status. -/
def update_status_phase (config : SmcConfig) (phase : String) (message : Option String)
    (now : Nat) : Bool × Option SecretManagerConfigStatus :=
  let current_phase := config.status.bind (·.phase)
  let current_description := config.status.bind (·.description)
  if current_phase = some phase ∧ current_description = message then
    (false, config.status)
  else
    (true, some {
      phase := some phase
      description := message
      conditions := [mkReadyCondition phase message now]
      observedGeneration := config.generation
      lastReconcileTime := some now
      nextReconcileTime := nextReconcileTimeAfter config.reconcileInterval now
      secretsSynced := none })

/-- The single condition pushed by `update_status` (lines 140-146 of the source). -/
def syncReadyCondition (description : String) (now : Nat) : Condition :=
  { r_type := "Ready"
    status := "True"
    lastTransitionTime := some now
    reason := some "ReconciliationSucceeded"
    message := some description }

/-- Embedding of `update_status` (sync-count patch): returns whether an API write
was issued together with the resulting status. -/
def update_status (config : SmcConfig) (secrets_synced : Int) (now : Nat) :
    Bool × Option SecretManagerConfigStatus :=
  let description :=
    if config.configsEnabled then
      "Synced " ++ toString secrets_synced ++ " properties to config store"
    else
      "Synced " ++ toString secrets_synced ++ " secrets to secret store"
  let current_phase := config.status.bind (·.phase)
  let current_secrets_synced := config.status.bind (·.secretsSynced)
  if current_phase = some "Ready" ∧ current_secrets_synced = some secrets_synced then
    (false, config.status)
  else
    (true, some {
      phase := some "Ready"
      description := some description
      conditions := [syncReadyCondition description now]
      observedGeneration := config.generation
      lastReconcileTime := some now
      nextReconcileTime := nextReconcileTimeAfter config.reconcileInterval now
      secretsSynced := some secrets_synced })

theorem update_status_phase_noop (cfg : SmcConfig) (p : String) (m : Option String)
    (now : Nat) (h1 : cfg.status.bind (·.phase) = some p)
    (h2 : cfg.status.bind (·.description) = m) :
    update_status_phase cfg p m now = (false, cfg.status) := by
  simp [update_status_phase, h1, h2]

theorem update_status_noop (cfg : SmcConfig) (n : Int) (now : Nat)
    (h1 : cfg.status.bind (·.phase) = some "Ready")
    (h2 : cfg.status.bind (·.secretsSynced) = some n) :
    update_status cfg n now = (false, cfg.status) := by
  simp [update_status, h1, h2]

theorem update_status_phase_post (cfg : SmcConfig) (p : String) (m : Option String)
    (now : Nat) :
    ((update_status_phase cfg p m now).2.bind (·.phase) = some p)
    ∧ ((update_status_phase cfg p m now).2.bind (·.description) = m) := by
  by_cases h : cfg.status.bind (·.phase) = some p
      ∧ cfg.status.bind (·.description) = m
  · simp only [update_status_phase, if_pos h]
    exact h
  · simp only [update_status_phase, if_neg h]
    exact ⟨rfl, rfl⟩

theorem update_status_post (cfg : SmcConfig) (n : Int) (now : Nat) :
    ((update_status cfg n now).2.bind (·.phase) = some "Ready")
    ∧ ((update_status cfg n now).2.bind (·.secretsSynced) = some n) := by
  by_cases h : cfg.status.bind (·.phase) = some "Ready"
      ∧ cfg.status.bind (·.secretsSynced) = some n
  · simp only [update_status, if_pos h]
    exact h
  · simp only [update_status, if_neg h]
    exact ⟨rfl, rfl⟩

/-- C5: `update_status_phase` issues no API write when the current phase and
description already match, `update_status` issues no write when the phase is
Ready and the synced count is unchanged, and in both cases a repeated call with
identical arguments after any first call is suppressed and leaves the status
unchanged. -/
theorem C5_status_patch_suppression :
    (∀ (cfg : SmcConfig) (phase : String) (message : Option String) (now : Nat),
      cfg.status.bind (·.phase) = some phase →
      cfg.status.bind (·.description) = message →
      update_status_phase cfg phase message now = (false, cfg.status))
    ∧ (∀ (cfg : SmcConfig) (n : Int) (now : Nat),
        cfg.status.bind (·.phase) = some "Ready" →
        cfg.status.bind (·.secretsSynced) = some n →
        update_status cfg n now = (false, cfg.status))
    ∧ (∀ (cfg : SmcConfig) (phase : String) (message : Option String) (now1 now2 : Nat),
        update_status_phase
            { cfg with status := (update_status_phase cfg phase message now1).2 }
            phase message now2 =
          (false, (update_status_phase cfg phase message now1).2))
    ∧ (∀ (cfg : SmcConfig) (n : Int) (now1 now2 : Nat),
        update_status { cfg with status := (update_status cfg n now1).2 } n now2 =
          (false, (update_status cfg n now1).2)) := by
  refine ⟨?_, ?_, ?_, ?_⟩
  · intro cfg phase message now h1 h2
    exact update_status_phase_noop cfg phase message now h1 h2
  · intro cfg n now h1 h2
    exact update_status_noop cfg n now h1 h2
  · intro cfg phase message now1 now2
    obtain ⟨hp, hd⟩ := update_status_phase_post cfg phase message now1
    exact update_status_phase_noop
      { cfg with status := (update_status_phase cfg phase message now1).2 }
      phase message now2 hp hd
  · intro cfg n now1 now2
    obtain ⟨hp, hs⟩ := update_status_post cfg n now1
    exact update_status_noop
      { cfg with status := (update_status cfg n now1).2 } n now2 hp hs

/-- A resource already in phase Ready with description "ok" and two synced secrets. -/
def c5_ready_status : SecretManagerConfigStatus :=
  { phase := some "Ready", description := some "ok", conditions := [],
    observedGeneration := none, lastReconcileTime := none,
    nextReconcileTime := none, secretsSynced := some 2 }

def c5_cfg : SmcConfig :=
  { generation := none, reconcileInterval := "1m", configsEnabled := false,
    status := some c5_ready_status }

/-- C5 witness: a resource already Ready with matching description and count is
patched by neither function. -/
theorem C5_status_patch_suppression_witness :
    update_status_phase c5_cfg "Ready" (some "ok") 7 = (false, some c5_ready_status)
    ∧ update_status c5_cfg 2 7 = (false, some c5_ready_status) :=
  ⟨C5_status_patch_suppression.1 c5_cfg "Ready" (some "ok") 7 rfl rfl,
   C5_status_patch_suppression.2.1 c5_cfg 2 7 rfl rfl⟩

/-- The Ready condition carried by a status, as the spec reads it. -/
def readyCondition? (st : Option SecretManagerConfigStatus) : Option Condition :=
  st.bind (fun s => s.conditions.find? (fun c => c.r_type = "Ready"))

/-- A non-Ready status whose Ready condition last flipped at instant 5. -/
def c6_status0 : SecretManagerConfigStatus :=
  { phase := some "Failed", description := none,
    conditions := [{ r_type := "Ready", status := "False", lastTransitionTime := some 5,
                     reason := some "ReconciliationFailed", message := none }],
    observedGeneration := none, lastReconcileTime := some 5, nextReconcileTime := none,
    secretsSynced := none }

def c6_cfg : SmcConfig :=
  { generation := none, reconcileInterval := "1m", configsEnabled := false,
    status := some c6_status0 }

/-- C6 counterexample: patching phase Failed → Pending at instant 9 issues a write
whose Ready condition still has status "False" (no flip), yet `lastTransitionTime`
moves from 5 to 9 — the code stamps the current time on every non-suppressed patch,
not only on flips. -/
theorem C6_counterexample_transition_time_refresh :
    (readyCondition? c6_cfg.status).map (·.status) = some "False"
    ∧ (readyCondition? (update_status_phase c6_cfg "Pending" none 9).2).map (·.status)
        = some "False"
    ∧ (readyCondition? c6_cfg.status).map (·.lastTransitionTime) = some (some 5)
    ∧ (readyCondition? (update_status_phase c6_cfg "Pending" none 9).2).map
        (·.lastTransitionTime) = some (some 9)
    ∧ (update_status_phase c6_cfg "Pending" none 9).1 = true := by
  refine ⟨rfl, rfl, rfl, rfl, rfl⟩

/-- C6 (amended): every non-suppressed status patch carries exactly one condition,
of type Ready, whose status is "True" exactly when the patched phase is Ready, and
whose `lastTransitionTime` is stamped with the patch instant (so it refreshes on
every actual write, not only when the Ready status flips). -/
theorem C6_ready_condition_spec :
    (∀ (cfg : SmcConfig) (phase : String) (message : Option String) (now : Nat),
      (update_status_phase cfg phase message now).1 = true →
      ∃ c : Condition,
        (update_status_phase cfg phase message now).2.map (·.conditions) = some [c]
        ∧ c.r_type = "Ready"
        ∧ (c.status = "True" ↔ phase = "Ready")
        ∧ c.lastTransitionTime = some now
        ∧ (update_status_phase cfg phase message now).2.bind (·.phase) = some phase)
    ∧ (∀ (cfg : SmcConfig) (n : Int) (now : Nat),
        (update_status cfg n now).1 = true →
        ∃ c : Condition,
          (update_status cfg n now).2.map (·.conditions) = some [c]
          ∧ c.r_type = "Ready" ∧ c.status = "True"
          ∧ c.lastTransitionTime = some now
          ∧ (update_status cfg n now).2.bind (·.phase) = some "Ready") := by
  constructor
  · intro cfg phase message now hw
    by_cases h : cfg.status.bind (·.phase) = some phase
        ∧ cfg.status.bind (·.description) = message
    · simp [update_status_phase, h] at hw
    · refine ⟨mkReadyCondition phase message now, ?_, rfl, ?_, rfl, ?_⟩
      · simp [update_status_phase, h]
      · by_cases hp : phase = "Ready"
        · simp [mkReadyCondition, hp]
        · simp [mkReadyCondition, hp]
      · simp [update_status_phase, h]
  · intro cfg n now hw
    by_cases h : cfg.status.bind (·.phase) = some "Ready"
        ∧ cfg.status.bind (·.secretsSynced) = some n
    · simp [update_status, h] at hw
    · refine ⟨syncReadyCondition
          (if cfg.configsEnabled then
            "Synced " ++ toString n ++ " properties to config store"
          else
            "Synced " ++ toString n ++ " secrets to secret store") now, ?_, rfl, rfl, rfl, ?_⟩
      · simp [update_status, h]
      · simp [update_status, h]

/-- C6 witness: the amended theorem at a fresh resource patched to Ready. -/
theorem C6_ready_condition_spec_witness :
    ∃ c : Condition,
      (update_status_phase
          { generation := none, reconcileInterval := "1m", configsEnabled := false,
            status := none } "Ready" none 3).2.map (·.conditions) = some [c]
      ∧ c.r_type = "Ready"
      ∧ (c.status = "True" ↔ "Ready" = "Ready")
      ∧ c.lastTransitionTime = some 3
      ∧ (update_status_phase
          { generation := none, reconcileInterval := "1m", configsEnabled := false,
            status := none } "Ready" none 3).2.bind (·.phase) = some "Ready" :=
  C6_ready_condition_spec.1
    { generation := none, reconcileInterval := "1m", configsEnabled := false,
      status := none } "Ready" none 3 rfl

/-! ## C2 / C9 — Flux artifact download validation
(`src/controller/reconciler/artifact.rs`, lines 298-404)

After streaming the HTTP body into `artifact.tar.gz` inside the revision cache
directory the code checks, in order: downloaded size against `Content-Length`
when provided (lines 322-332), non-emptiness (lines 335-341), SHA-256 against
`status.artifact.digest` when provided (lines 355-384), and the gzip magic bytes
(lines 386-404).  Each failing check removes only the tar file
(`remove_file(&temp_tar)`) and returns an error; `remove_dir_all(&cache_path)` is
called only later, on extraction failure or empty extraction (lines 437-467).
The magic-byte check is guarded by `if let Ok(mut file) = File::open` and
`if file.read_exact(..).is_ok()`: when reopening fails or fewer than two bytes
can be read, the check is skipped silently and control proceeds to extraction.

The downloaded body is a list of bytes; SHA-256 is abstracted as a hash-function
parameter `sha256hex` (the code hex-formats it and prepends "sha256:"). -/

inductive DownloadValidation where
  | fail (removesTarFile : Bool) (removesCacheDir : Bool) (msg : String)
  | extract
deriving DecidableEq, Repr

/-- Which cleanup a validation outcome performs on the revision cache directory. -/
def DownloadValidation.removesCacheDir : DownloadValidation → Bool
  | .fail _ rd _ => rd
  | .extract => false

/-- The `Content-Length` comparison (lines 322-332): a mismatch only when the
header was provided. -/
def sizeMismatch (contentLength : Option Nat) (downloaded : Nat) : Bool :=
  match contentLength with
  | some expected => downloaded ≠ expected
  | none => false

/-- The digest comparison (lines 355-384): a mismatch only when
`status.artifact.digest` was provided. -/
def digestMismatch (sha256hex : List Nat → String) (digest : Option String)
    (body : List Nat) : Bool :=
  match digest with
  | some d => d ≠ "sha256:" ++ sha256hex body
  | none => false

/-- The magic-byte check (lines 386-404): `read_exact` of two bytes succeeds only
when the file holds at least two, and only then is the gzip magic compared;
otherwise the check is skipped. -/
def magicBytesBad (body : List Nat) : Bool :=
  decide (2 ≤ body.length) && decide (body.take 2 ≠ [0x1f, 0x8b])

/-- Embedding of the download-validation phase of `get_flux_artifact_path`:
the checks run in source order; each failure records which on-disk artifacts are
deleted before the error returns. -/
def validate_downloaded_artifact (sha256hex : List Nat → String)
    (contentLength : Option Nat) (digest : Option String) (body : List Nat) :
    DownloadValidation :=
  if sizeMismatch contentLength body.length then
    .fail true false "Partial download detected"
  else if body.length = 0 then
    .fail true false "Downloaded artifact is empty"
  else if digestMismatch sha256hex digest body then
    .fail true false "Checksum mismatch"
  else if magicBytesBad body then
    .fail true false "Invalid file format"
  else
    .extract

/-- Stand-in hash function for concrete runs (the claims never depend on the
actual SHA-256 value, only on equality of the formatted digests). -/
def sha256stub : List Nat → String := fun _ => "deadbeef"

/-- C2 counterexample: a download with Content-Length 5 but only 3 streamed bytes
fails validation and deletes the partial tar file, but does not delete the
revision cache directory, contradicting the claim that both are deleted. -/
theorem C2_counterexample_cache_dir_not_deleted :
    validate_downloaded_artifact sha256stub (some 5) none [0, 1, 2]
      = .fail true false "Partial download detected"
    ∧ (validate_downloaded_artifact sha256stub (some 5) none [0, 1, 2]).removesCacheDir
      = false :=
  ⟨rfl, rfl⟩

/-- C2 (amended): every download-validation failure — size mismatch against
Content-Length, SHA-256 digest mismatch, or bad gzip magic bytes — returns an
error and deletes the partial artifact.tar.gz file, while the revision cache
directory is never deleted by this phase (it is removed only later, on
extraction failure or empty extraction). -/
theorem C2_validation_failures_delete_tar_only (sha256hex : List Nat → String)
    (contentLength : Option Nat) (digest : Option String) (body : List Nat) :
    (sizeMismatch contentLength body.length = true →
      validate_downloaded_artifact sha256hex contentLength digest body
        = .fail true false "Partial download detected")
    ∧ (sizeMismatch contentLength body.length = false → body.length ≠ 0 →
        digestMismatch sha256hex digest body = true →
        validate_downloaded_artifact sha256hex contentLength digest body
          = .fail true false "Checksum mismatch")
    ∧ (sizeMismatch contentLength body.length = false → body.length ≠ 0 →
        digestMismatch sha256hex digest body = false → magicBytesBad body = true →
        validate_downloaded_artifact sha256hex contentLength digest body
          = .fail true false "Invalid file format")
    ∧ (∀ (rt rd : Bool) (m : String),
        validate_downloaded_artifact sha256hex contentLength digest body
          = .fail rt rd m → rt = true ∧ rd = false) := by
  refine ⟨?_, ?_, ?_, ?_⟩
  · intro h
    simp [validate_downloaded_artifact, h]
  · intro h1 h2 h3
    simp [validate_downloaded_artifact, h1, h2, h3]
  · intro h1 h2 h3 h4
    simp [validate_downloaded_artifact, h1, h2, h3, h4]
  · intro rt rd m h
    unfold validate_downloaded_artifact at h
    split at h
    · cases h; exact ⟨rfl, rfl⟩
    · split at h
      · cases h; exact ⟨rfl, rfl⟩
      · split at h
        · cases h; exact ⟨rfl, rfl⟩
        · split at h
          · cases h; exact ⟨rfl, rfl⟩
          · cases h

/-- C2 witness: the amended theorem at a checksum mismatch and at a zip-magic file. -/
theorem C2_validation_failures_delete_tar_only_witness :
    validate_downloaded_artifact sha256stub none (some "sha256:other") [1, 2, 3]
      = .fail true false "Checksum mismatch"
    ∧ validate_downloaded_artifact sha256stub none none [0x50, 0x4b, 3, 4]
      = .fail true false "Invalid file format" :=
  ⟨(C2_validation_failures_delete_tar_only sha256stub none (some "sha256:other")
      [1, 2, 3]).2.1 rfl (by decide) rfl,
   (C2_validation_failures_delete_tar_only sha256stub none none
      [0x50, 0x4b, 3, 4]).2.2.1 rfl (by decide) rfl rfl⟩

/-- C9: when fewer than two bytes can be read back from the downloaded file, the
gzip magic check is skipped silently; in particular a one-byte, non-gzip download
with no Content-Length header and no digest passes every validation check and
proceeds to tar extraction. -/
theorem C9_magic_check_skipped_short_file :
    (∀ (sha256hex : List Nat → String) (contentLength : Option Nat)
        (digest : Option String) (body : List Nat),
      body.length < 2 → body.length ≠ 0 →
      sizeMismatch contentLength body.length = false →
      digestMismatch sha256hex digest body = false →
      validate_downloaded_artifact sha256hex contentLength digest body = .extract)
    ∧ magicBytesBad [0x50] = false
    ∧ [0x50] ≠ ([] : List Nat)
    ∧ validate_downloaded_artifact sha256stub none none [0x50] = .extract := by
  refine ⟨?_, rfl, by decide, rfl⟩
  intro sha256hex contentLength digest body hlt hne hsize hdigest
  have hmagic : magicBytesBad body = false := by
    simp [magicBytesBad]
    omega
  simp [validate_downloaded_artifact, hsize, hne, hdigest, hmagic]

/-- C9 witness: the quantified conjunct at the single zip-magic byte 0x50. -/
theorem C9_magic_check_skipped_short_file_witness :
    validate_downloaded_artifact sha256stub none none [0x50] = .extract :=
  C9_magic_check_skipped_short_file.1 sha256stub none none [0x50]
    (by decide) (by decide) rfl rfl

/-! ## C7 — Flux revision key
(`src/controller/reconciler/artifact.rs`, lines 100-127)

The revision string from `status.artifact.revision` is split at the first `@`;
the SHA is everything after the first occurrence of "sha1:" (searched in the whole
revision), else after "sha256:", else everything after the `@`; the short SHA is
the first seven characters (or the whole SHA when shorter); the cache directory
name is `{sanitized branch}-sha-{short}`.  Without any `@` the entire revision is
the branch and the SHA is "unknown".  `sanitize_path_component` lives in
`src/controller/reconciler/utils.rs`, which is not in the corpus; it is modelled
from the spec (§6): replace any character outside `[A-Za-z0-9_-]` with `_`
(behaviour consistent with `tests/unit/utils_tests.rs`). -/

/-- Character class `[A-Za-z0-9_-]` used by both sanitizers. -/
def isNameChar (c : Char) : Bool :=
  ('A' ≤ c && c ≤ 'Z') || ('a' ≤ c && c ≤ 'z') || ('0' ≤ c && c ≤ '9') || c = '_' || c = '-'

/-- Modelled from the spec: `sanitize_path_component` replaces every character
outside `[A-Za-z0-9_-]` with an underscore (spec §6; source file missing). -/
def sanitize_path_component (s : List Char) : List Char :=
  s.map (fun c => if isNameChar c then c else '_')

def pat_sha1 : List Char := "sha1:".data
def pat_sha256 : List Char := "sha256:".data

/-- Embedding of the revision-key computation of `get_flux_artifact_path`:
the name of the revision cache directory. -/
def flux_revision_dir (revision : List Char) : List Char :=
  match revision.dropWhile (· ≠ '@') with
  | [] => sanitize_path_component revision ++ "-sha-".data ++ "unknown".data
  | _ :: afterAt =>
      let branch := revision.takeWhile (· ≠ '@')
      let sha :=
        match dropAfterSubstr? pat_sha1 revision with
        | some s => s
        | none =>
            match dropAfterSubstr? pat_sha256 revision with
            | some s => s
            | none => afterAt
      let short_sha := if 7 ≤ sha.length then sha.take 7 else sha
      sanitize_path_component branch ++ "-sha-".data ++ short_sha

/-- Lowercase hexadecimal digit (the characters a git SHA consists of). -/
def isHexDigitChar (c : Char) : Bool :=
  isDigitChar c || c ∈ ['f', 'e', 'd', 'c', 'b', 'a']

theorem isPrefixOf_false_of_colon_before_at (pat u w : List Char)
    (hcolon : ':' ∈ pat) (hat : '@' ∉ pat) (hu : ':' ∉ u) :
    pat.isPrefixOf (u ++ '@' :: w) = false := by
  cases hb : pat.isPrefixOf (u ++ '@' :: w) with
  | false => rfl
  | true =>
    exfalso
    have hpre : pat <+: (u ++ '@' :: w) := List.isPrefixOf_iff_prefix.mp hb
    have htake : pat = (u ++ '@' :: w).take pat.length := List.prefix_iff_eq_take.mp hpre
    rw [List.take_append_eq_append_take] at htake
    by_cases hlen : pat.length ≤ u.length
    · rw [Nat.sub_eq_zero_of_le hlen, List.take_zero, List.append_nil] at htake
      rw [htake] at hcolon
      exact hu (List.take_subset _ _ hcolon)
    · have hpos : 0 < pat.length - u.length := by omega
      obtain ⟨k, hk⟩ : ∃ k, pat.length - u.length = k + 1 :=
        ⟨pat.length - u.length - 1, by omega⟩
      rw [hk, List.take_succ_cons] at htake
      rw [htake] at hat
      exact hat (List.mem_append.mpr (Or.inr (List.mem_cons_self _ _)))

theorem dropAfterSubstr?_append (pat u v : List Char)
    (h : ∀ t, t ≠ [] → t <:+ u → pat.isPrefixOf (t ++ v) = false) :
    dropAfterSubstr? pat (u ++ v) = dropAfterSubstr? pat v := by
  induction u with
  | nil => rfl
  | cons c ct ih =>
    have h1 : pat.isPrefixOf (c :: (ct ++ v)) = false := by
      simpa using h (c :: ct) (by simp) (List.suffix_refl _)
    show dropAfterSubstr? pat (c :: (ct ++ v)) = _
    rw [show dropAfterSubstr? pat (c :: (ct ++ v))
        = (if pat.isPrefixOf (c :: (ct ++ v)) then
            some ((c :: (ct ++ v)).drop pat.length)
          else dropAfterSubstr? pat (ct ++ v)) from rfl]
    rw [if_neg (by simp [h1])]
    exact ih (fun t ht hsuf => h t ht (hsuf.trans (List.suffix_cons c ct)))

theorem dropAfterSubstr?_self_append (pat rest : List Char) (hne : pat ≠ []) :
    dropAfterSubstr? pat (pat ++ rest) = some rest := by
  cases pat with
  | nil => exact absurd rfl hne
  | cons p pt =>
    show dropAfterSubstr? (p :: pt) (p :: (pt ++ rest)) = some rest
    rw [show dropAfterSubstr? (p :: pt) (p :: (pt ++ rest))
        = (if (p :: pt).isPrefixOf (p :: (pt ++ rest)) then
            some ((p :: (pt ++ rest)).drop (p :: pt).length)
          else dropAfterSubstr? (p :: pt) (pt ++ rest)) from rfl]
    rw [if_pos]
    · congr 1
      show (p :: (pt ++ rest)).drop (pt.length + 1) = rest
      rw [List.drop_succ_cons]
      exact List.drop_left pt rest
    · exact List.isPrefixOf_iff_prefix.mpr ⟨rest, by simp⟩

theorem dropAfterSubstr?_eq_none (pat s : List Char)
    (h : ∀ t, t <:+ s → pat.isPrefixOf t = false) :
    dropAfterSubstr? pat s = none := by
  induction s with
  | nil =>
    have h0 : pat.isPrefixOf [] = false := h [] (List.suffix_refl _)
    cases pat with
    | nil => simp [List.isPrefixOf] at h0
    | cons p pt => rfl
  | cons c t ih =>
    rw [show dropAfterSubstr? pat (c :: t)
        = (if pat.isPrefixOf (c :: t) then some ((c :: t).drop pat.length)
          else dropAfterSubstr? pat t) from rfl]
    rw [if_neg (by simp [h (c :: t) (List.suffix_refl _)])]
    exact ih (fun t2 ht2 => h t2 (ht2.trans (List.suffix_cons c t)))

theorem suffix_append_cases (u v t : List Char) (h : t <:+ u ++ v) :
    (∃ t1, t1 <:+ u ∧ t = t1 ++ v) ∨ t <:+ v := by
  induction u with
  | nil => exact Or.inr (by simpa using h)
  | cons c ct ih =>
    rcases List.suffix_cons_iff.mp (by simpa using h) with hfull | htail
    · exact Or.inl ⟨c :: ct, List.suffix_refl _, by simpa using hfull⟩
    · rcases ih htail with ⟨t1, ht1, rfl⟩ | hv
      · exact Or.inl ⟨t1, ht1.trans (List.suffix_cons c ct), rfl⟩
      · exact Or.inr hv

theorem hex_no_colon (hex : List Char) (h : ∀ c ∈ hex, isHexDigitChar c = true) :
    ':' ∉ hex := by
  intro hm
  simpa [isHexDigitChar, isDigitChar] using h ':' hm

/-- No nonempty suffix of `branch ++ "@"` starts the pattern when the pattern
contains a colon but no `@` and the branch has no colon. -/
theorem no_marker_prefix_in_branch_at (pat branch w : List Char)
    (hcolon : ':' ∈ pat) (hat : '@' ∉ pat) (hb : ':' ∉ branch) :
    ∀ t, t ≠ [] → t <:+ branch ++ ['@'] → pat.isPrefixOf (t ++ w) = false := by
  intro t htne htsuf
  rcases suffix_append_cases branch ['@'] t htsuf with ⟨t1, ht1, rfl⟩ | hsing
  · have ht1c : ':' ∉ t1 := fun hm => hb (ht1.subset hm)
    have : (t1 ++ ['@']) ++ w = t1 ++ '@' :: w := by simp
    rw [this]
    exact isPrefixOf_false_of_colon_before_at pat t1 w hcolon hat ht1c
  · rcases List.suffix_cons_iff.mp hsing with hfull | hnil
    · subst hfull
      exact isPrefixOf_false_of_colon_before_at pat [] w hcolon hat (by simp)
    · simp at hnil
      exact absurd hnil htne

/-- "sha1:" occurs nowhere in a hex string. -/
theorem no_sha1_in_hex (hex : List Char) (hh : ∀ c ∈ hex, isHexDigitChar c = true) :
    ∀ t, t <:+ hex → pat_sha1.isPrefixOf t = false := by
  intro t ht
  cases hb : pat_sha1.isPrefixOf t with
  | false => rfl
  | true =>
    exfalso
    have hpre : pat_sha1 <+: t := List.isPrefixOf_iff_prefix.mp hb
    have : ':' ∈ t := hpre.subset (by decide)
    exact hex_no_colon hex hh (ht.subset this)

theorem dropAfter_sha1_found (branch hex : List Char) (hb : ':' ∉ branch) :
    dropAfterSubstr? pat_sha1 (branch ++ '@' :: (pat_sha1 ++ hex)) = some hex := by
  have hsplit : branch ++ '@' :: (pat_sha1 ++ hex)
      = (branch ++ ['@']) ++ (pat_sha1 ++ hex) := by simp
  rw [hsplit, dropAfterSubstr?_append _ _ _
    (no_marker_prefix_in_branch_at pat_sha1 branch _ (by decide) (by decide) hb)]
  exact dropAfterSubstr?_self_append pat_sha1 hex (by decide)

theorem dropAfter_sha256_found (branch hex : List Char) (hb : ':' ∉ branch) :
    dropAfterSubstr? pat_sha256 (branch ++ '@' :: (pat_sha256 ++ hex)) = some hex := by
  have hsplit : branch ++ '@' :: (pat_sha256 ++ hex)
      = (branch ++ ['@']) ++ (pat_sha256 ++ hex) := by simp
  rw [hsplit, dropAfterSubstr?_append _ _ _
    (no_marker_prefix_in_branch_at pat_sha256 branch _ (by decide) (by decide) hb)]
  exact dropAfterSubstr?_self_append pat_sha256 hex (by decide)

theorem dropAfter_sha1_none_in_sha256 (branch hex : List Char) (hb : ':' ∉ branch)
    (hh : ∀ c ∈ hex, isHexDigitChar c = true) :
    dropAfterSubstr? pat_sha1 (branch ++ '@' :: (pat_sha256 ++ hex)) = none := by
  have hsplit : branch ++ '@' :: (pat_sha256 ++ hex)
      = (branch ++ ['@']) ++ (pat_sha256 ++ hex) := by simp
  rw [hsplit, dropAfterSubstr?_append _ _ _
    (no_marker_prefix_in_branch_at pat_sha1 branch _ (by decide) (by decide) hb)]
  rw [dropAfterSubstr?_append pat_sha1 pat_sha256 hex ?notInside]
  · exact dropAfterSubstr?_eq_none pat_sha1 hex (no_sha1_in_hex hex hh)
  case notInside =>
    intro t htne htsuf
    have hp : pat_sha256 = ['s', 'h', 'a', '2', '5', '6', ':'] := by decide
    rw [hp] at htsuf
    rcases List.suffix_cons_iff.mp htsuf with rfl | htsuf
    · rfl
    rcases List.suffix_cons_iff.mp htsuf with rfl | htsuf
    · rfl
    rcases List.suffix_cons_iff.mp htsuf with rfl | htsuf
    · rfl
    rcases List.suffix_cons_iff.mp htsuf with rfl | htsuf
    · rfl
    rcases List.suffix_cons_iff.mp htsuf with rfl | htsuf
    · rfl
    rcases List.suffix_cons_iff.mp htsuf with rfl | htsuf
    · rfl
    rcases List.suffix_cons_iff.mp htsuf with rfl | htsuf
    · rfl
    exact absurd (List.suffix_nil.mp htsuf) htne

theorem flux_revision_dir_found (rev branch afterAt sha : List Char)
    (hd : rev.dropWhile (· ≠ '@') = '@' :: afterAt)
    (ht : rev.takeWhile (· ≠ '@') = branch)
    (h1 : dropAfterSubstr? pat_sha1 rev = some sha) :
    flux_revision_dir rev = sanitize_path_component branch ++ "-sha-".data
      ++ (if 7 ≤ sha.length then sha.take 7 else sha) := by
  unfold flux_revision_dir
  rw [hd]
  simp only [ht, h1]

theorem flux_revision_dir_found256 (rev branch afterAt sha : List Char)
    (hd : rev.dropWhile (· ≠ '@') = '@' :: afterAt)
    (ht : rev.takeWhile (· ≠ '@') = branch)
    (h1 : dropAfterSubstr? pat_sha1 rev = none)
    (h2 : dropAfterSubstr? pat_sha256 rev = some sha) :
    flux_revision_dir rev = sanitize_path_component branch ++ "-sha-".data
      ++ (if 7 ≤ sha.length then sha.take 7 else sha) := by
  unfold flux_revision_dir
  rw [hd]
  simp only [ht, h1, h2]

theorem flux_revision_dir_no_at (rev : List Char) (h : '@' ∉ rev) :
    flux_revision_dir rev
      = sanitize_path_component rev ++ "-sha-".data ++ "unknown".data := by
  have hd : rev.dropWhile (· ≠ '@') = [] := by
    rw [List.dropWhile_eq_nil_iff]
    intro c hc
    have hne : c ≠ '@' := fun he => h (he ▸ hc)
    simpa using hne
  unfold flux_revision_dir
  rw [hd]

/-- C7: for a revision "branch@sha1:hex" or "branch@sha256:hex" (branch without
'@' or ':', hex of at least seven hex digits) the revision cache directory name is
"{sanitized branch}-sha-{first 7 hex chars}"; a revision without '@' is treated
entirely as a branch name (with SHA "unknown"); the spec example
"main@sha1:7680da431ea59ae7d3f4fdbb903a0f4509da9078" yields "main-sha-7680da4". -/
theorem C7_flux_revision_key (branch hex : List Char)
    (hb_at : '@' ∉ branch) (hb_colon : ':' ∉ branch)
    (hh : ∀ c ∈ hex, isHexDigitChar c = true) (hlen : 7 ≤ hex.length) :
    flux_revision_dir (branch ++ '@' :: (pat_sha1 ++ hex))
      = sanitize_path_component branch ++ "-sha-".data ++ hex.take 7
    ∧ flux_revision_dir (branch ++ '@' :: (pat_sha256 ++ hex))
      = sanitize_path_component branch ++ "-sha-".data ++ hex.take 7
    ∧ (∀ rev : List Char, '@' ∉ rev →
        flux_revision_dir rev
          = sanitize_path_component rev ++ "-sha-".data ++ "unknown".data)
    ∧ flux_revision_dir ("main@sha1:7680da431ea59ae7d3f4fdbb903a0f4509da9078").data
      = ("main-sha-7680da4").data := by
  have hbp : ∀ c ∈ branch, (fun c => decide (c ≠ '@')) c = true := by
    intro c hc
    have hne : c ≠ '@' := fun he => hb_at (he ▸ hc)
    simpa using hne
  have hba : (fun c => decide (c ≠ '@')) '@' = false := by simp
  refine ⟨?_, ?_, ?_, ?_⟩
  · obtain ⟨ht, hd⟩ := takeWhile_append_all branch '@' (pat_sha1 ++ hex) hbp hba
    rw [flux_revision_dir_found (branch ++ '@' :: (pat_sha1 ++ hex)) branch
      (pat_sha1 ++ hex) hex hd ht (dropAfter_sha1_found branch hex hb_colon)]
    rw [if_pos hlen]
  · obtain ⟨ht, hd⟩ := takeWhile_append_all branch '@' (pat_sha256 ++ hex) hbp hba
    rw [flux_revision_dir_found256 (branch ++ '@' :: (pat_sha256 ++ hex)) branch
      (pat_sha256 ++ hex) hex hd ht
      (dropAfter_sha1_none_in_sha256 branch hex hb_colon hh)
      (dropAfter_sha256_found branch hex hb_colon)]
    rw [if_pos hlen]
  · exact fun rev h => flux_revision_dir_no_at rev h
  · rfl

/-- C7 witness: the theorem at branch "main" and the 40-character example SHA. -/
theorem C7_flux_revision_key_witness :
    flux_revision_dir (("main").data ++ '@'
        :: (pat_sha1 ++ ("7680da431ea59ae7d3f4fdbb903a0f4509da9078").data))
      = sanitize_path_component ("main").data ++ "-sha-".data
        ++ (("7680da431ea59ae7d3f4fdbb903a0f4509da9078").data).take 7 :=
  (C7_flux_revision_key ("main").data
    ("7680da431ea59ae7d3f4fdbb903a0f4509da9078").data
    (by decide) (by decide) (by decide) (by decide)).1

/-! ## C8 — projected secret names
(spec §4.9; `construct_secret_name` / `sanitize_secret_name` live in
`src/controller/reconciler/utils.rs`, which is not in the corpus — only their unit
tests are, in `tests/utils_tests.rs` and `tests/unit/utils_tests.rs`.  The
functions are therefore modelled from the spec.  Note the two test files disagree
on `sanitize_secret_name("...")`: `tests/utils_tests.rs` expects "___", matching
the spec rule modelled here, while `tests/unit/utils_tests.rs` expects "". -/

/-- Modelled from the spec: collapse consecutive dashes to a single dash. -/
def collapseDashes : List Char → List Char
  | [] => []
  | [c] => [c]
  | c1 :: c2 :: rest =>
      if c1 = '-' ∧ c2 = '-' then collapseDashes (c2 :: rest)
      else c1 :: collapseDashes (c2 :: rest)

/-- Modelled from the spec: trim leading and trailing dashes. -/
def trimDashes (s : List Char) : List Char :=
  ((s.dropWhile (· = '-')).reverse.dropWhile (· = '-')).reverse

/-- Modelled from the spec: `sanitize_secret_name` replaces any character outside
`[A-Za-z0-9_-]` with `_`, collapses consecutive `-` to a single `-`, and trims
leading/trailing `-` (§4.9). -/
def sanitize_secret_name (s : String) : String :=
  ⟨trimDashes (collapseDashes (s.data.map (fun c => if isNameChar c then c else '_')))⟩

/-- Modelled from the spec: `construct_secret_name` computes
`sanitize(join("-", [prefix?, sanitize_key(k), suffix?]))` with empty segments
collapsed out (§4.9). -/
def construct_secret_name (pfx : Option String) (key : String) (sfx : Option String) :
    String :=
  let segments :=
    [pfx.getD "", sanitize_secret_name key, sfx.getD ""].filter (fun s => s ≠ "")
  sanitize_secret_name (String.intercalate "-" segments)

/-- The projected name exactly as the claim words it: the plain '-'-join of the
non-empty segments, with no outer sanitization pass. -/
def claimed_projected_name (pfx : Option String) (key : String) (sfx : Option String) :
    String :=
  String.intercalate "-"
    ([pfx.getD "", sanitize_secret_name key, sfx.getD ""].filter (fun s => s ≠ ""))

/-- C8 counterexample: with prefix "x-" (a dash-terminated prefix), key "k" and no
suffix, the projected name is the sanitized "x-k", not the plain join "x--k" the
claim describes — the join is passed through sanitize again. -/
theorem C8_counterexample_join_not_sanitized :
    construct_secret_name (some "x-") "k" none = "x-k"
    ∧ claimed_projected_name (some "x-") "k" none = "x--k"
    ∧ ("x-k" : String) ≠ "x--k" :=
  ⟨rfl, rfl, by decide⟩

/-- C8 (amended): the projected provider secret name is `sanitize_secret_name`
applied to the '-'-join of the non-empty segments [prefix, sanitized key, suffix];
in particular prefix "svc", key "a.b/c d", suffix "prod" yield "svc-a_b_c_d-prod",
and the model reproduces the repo unit-test vectors for the sanitizer. -/
theorem C8_projected_name_spec (pfx sfx : Option String) (key : String) :
    construct_secret_name pfx key sfx
      = sanitize_secret_name (claimed_projected_name pfx key sfx)
    ∧ construct_secret_name (some "svc") "a.b/c d" (some "prod") = "svc-a_b_c_d-prod"
    ∧ construct_secret_name (some "prefix") "key" (some "suffix") = "prefix-key-suffix"
    ∧ construct_secret_name (some "") "key" (some "") = "key"
    ∧ sanitize_secret_name "test--key.value/name" = "test-key_value_name"
    ∧ sanitize_secret_name "--test--" = "test"
    ∧ sanitize_secret_name "---" = ""
    ∧ sanitize_secret_name "..." = "___" :=
  ⟨rfl, rfl, rfl, rfl, rfl, rfl, rfl, rfl⟩

/-- C8 witness: the quantified conjunct at the spec example inputs. -/
theorem C8_projected_name_spec_witness :
    construct_secret_name (some "svc") "a.b/c d" (some "prod")
      = sanitize_secret_name (claimed_projected_name (some "svc") "a.b/c d" (some "prod")) :=
  (C8_projected_name_spec (some "svc") (some "prod") "a.b/c d").1
